import Mathlib

/-
A shallow embedding, in Lean, of the job-orchestration core of `bot2.py`:
the filename sanitiser, the subprocess line pump, the progress parser and
throttle, the upload retry loop, the download task body, and the per-user
submission and cancellation handlers.  Strings are Lean strings (lists of
characters), the filesystem is a list of existing paths, and external
effects (the fetch/transcode child processes, the chat transport, the
upload) are oracle parameters.
-/

namespace Mybot

/-!  ## Filename sanitisation

`clean_filename` embeds `re.sub(r'[\\/:"*?<>|]+', "_", s)`: every maximal
run of filesystem-unsafe characters is replaced by a single underscore.
The boolean argument of `cleanAux` records whether the scanner is
currently inside an unsafe run (in which case further unsafe characters
are absorbed without emitting another underscore). -/

def isUnsafe (c : Char) : Bool :=
  c = '\\' || c = '/' || c = ':' || c = '\"' || c = '*' ||
  c = '?' || c = '<' || c = '>' || c = '|'

def cleanAux : Bool → List Char → List Char
  | _, [] => []
  | inRun, c :: rest =>
    if isUnsafe c then
      if inRun then cleanAux true rest else '_' :: cleanAux true rest
    else
      c :: cleanAux false rest

def clean_filename (s : String) : String := ⟨cleanAux false s.data⟩

theorem cleanAux_all_safe (l : List Char) : ∀ b, ∀ c ∈ cleanAux b l, isUnsafe c = false := by
  induction l with
  | nil => intro b c hc; simp [cleanAux] at hc
  | cons a rest ih =>
    intro b c hc
    by_cases ha : isUnsafe a = true
    · cases b with
      | true =>
        simp only [cleanAux, ha, if_true] at hc
        exact ih true c hc
      | false =>
        simp only [cleanAux, ha, if_true] at hc
        rcases List.mem_cons.mp hc with h | h
        · subst h; decide
        · exact ih true c h
    · simp only [cleanAux, ha, Bool.false_eq_true, if_false] at hc
      rcases List.mem_cons.mp hc with h | h
      · subst h; simpa using ha
      · exact ih false c h

theorem cleanAux_id_of_safe (l : List Char) (hl : ∀ c ∈ l, isUnsafe c = false) :
    ∀ b, cleanAux b l = l := by
  induction l with
  | nil => intro b; rfl
  | cons a rest ih =>
    intro b
    have ha : isUnsafe a = false := hl a (List.mem_cons_self a rest)
    have hrest : ∀ c ∈ rest, isUnsafe c = false := fun c hc => hl c (List.mem_cons_of_mem a hc)
    simp [cleanAux, ha, ih hrest false]

theorem cleanAux_append_safe (s1 x : List Char) (h : ∀ c ∈ s1, isUnsafe c = false) :
    cleanAux false (s1 ++ x) = s1 ++ cleanAux false x := by
  induction s1 with
  | nil => rfl
  | cons a rest ih =>
    have ha : isUnsafe a = false := h a (List.mem_cons_self a rest)
    have hrest : ∀ c ∈ rest, isUnsafe c = false := fun c hc => h c (List.mem_cons_of_mem a hc)
    simp [cleanAux, ha, ih hrest]

theorem cleanAux_run_absorb (r x : List Char) (h : ∀ c ∈ r, isUnsafe c = true) :
    cleanAux true (r ++ x) = cleanAux true x := by
  induction r with
  | nil => rfl
  | cons a rest ih =>
    have ha : isUnsafe a = true := h a (List.mem_cons_self a rest)
    have hrest : ∀ c ∈ rest, isUnsafe c = true := fun c hc => h c (List.mem_cons_of_mem a hc)
    simp [cleanAux, ha, ih hrest]

theorem cleanAux_true_eq_false_of_head_safe (s2 : List Char)
    (h : ∀ c, s2.head? = some c → isUnsafe c = false) :
    cleanAux true s2 = cleanAux false s2 := by
  cases s2 with
  | nil => rfl
  | cons a rest =>
    have ha : isUnsafe a = false := h a rfl
    simp [cleanAux, ha]

/-- C10: for every input string the sanitised title contains none of the
characters `\ / : " * ? < > |`; the sanitiser is idempotent; and a maximal
run of unsafe characters (one whose left context ends safely and whose
right context starts safely) is replaced by a single underscore. -/
theorem c10_clean_filename_sanitises (s : String) (s1 r s2 : List Char)
    (h1 : ∀ c ∈ s1, isUnsafe c = false)
    (hr : r ≠ []) (hru : ∀ c ∈ r, isUnsafe c = true)
    (h2 : ∀ c, s2.head? = some c → isUnsafe c = false) :
    (∀ c ∈ (clean_filename s).data, isUnsafe c = false)
    ∧ clean_filename (clean_filename s) = clean_filename s
    ∧ cleanAux false (s1 ++ (r ++ s2)) = s1 ++ '_' :: cleanAux false s2 := by
  refine ⟨fun c hc => cleanAux_all_safe s.data false c hc, ?_, ?_⟩
  · show (⟨cleanAux false (cleanAux false s.data)⟩ : String) = ⟨cleanAux false s.data⟩
    have hsafe : ∀ c ∈ cleanAux false s.data, isUnsafe c = false :=
      fun c hc => cleanAux_all_safe s.data false c hc
    rw [cleanAux_id_of_safe _ hsafe false]
  · rw [cleanAux_append_safe s1 (r ++ s2) h1]
    cases r with
    | nil => exact absurd rfl hr
    | cons a rest =>
      have ha : isUnsafe a = true := hru a (List.mem_cons_self a rest)
      have hrest : ∀ c ∈ rest, isUnsafe c = true := fun c hc => hru c (List.mem_cons_of_mem a hc)
      simp only [List.cons_append, cleanAux, ha, if_true, Bool.false_eq_true, if_false,
        List.append_eq]
      rw [cleanAux_run_absorb rest s2 hrest, cleanAux_true_eq_false_of_head_safe s2 h2]

theorem c10_clean_filename_sanitises_witness :
    (∀ c ∈ (clean_filename "a\\b//c:?d").data, isUnsafe c = false)
    ∧ clean_filename (clean_filename "a\\b//c:?d") = clean_filename "a\\b//c:?d"
    ∧ cleanAux false ("ab".data ++ (":*?".data ++ "cd".data))
        = "ab".data ++ '_' :: cleanAux false "cd".data :=
  c10_clean_filename_sanitises "a\\b//c:?d" "ab".data ":*?".data "cd".data
    (by decide) (by decide) (by decide) (by decide)

/-!  ## Subprocess line pump

`run_subprocess` embeds the async reader loop: the child process is an
oracle delivering a list of events — `some txt` is one decoded output
line, `none` is a `readline` that exceeds the timeout (whereupon the
child is killed and `RuntimeError("Subprocess timed out (6000 s)")` is
raised, modelled as `Except.error`); the end of the list is EOF, after
which `proc.wait()` yields the oracle exit code.  The per-line callback
is a state transformer that may also raise (`Option` component); the
source wraps the call in `try/except Exception: pass`, so the raised
component is discarded and the loop continues. -/

def run_subprocess {σ : Type} (events : List (Option String)) (exitCode : Int)
    (on_line : σ → String → σ × Option String) (s : σ) : Except String (Int × σ) :=
  match events with
  | [] => .ok (exitCode, s)
  | none :: _ => .error "Subprocess timed out (6000 s)"
  | some txt :: rest =>
    -- `except Exception: pass`: the exception component of the callback is dropped
    run_subprocess rest exitCode on_line (on_line s txt).1

theorem run_subprocess_no_timeout {σ : Type} (events : List (Option String)) (exitCode : Int)
    (on_line : σ → String → σ × Option String) (s : σ)
    (h : (none : Option String) ∉ events) :
    run_subprocess events exitCode on_line s
      = .ok (exitCode, (events.filterMap id).foldl (fun st l => (on_line st l).1) s) := by
  induction events generalizing s with
  | nil => rfl
  | cons e rest ih =>
    cases e with
    | none => exact absurd (List.mem_cons_self _ _) h
    | some txt =>
      have hrest : (none : Option String) ∉ rest := fun hm => h (List.mem_cons_of_mem _ hm)
      simp only [run_subprocess, List.filterMap_cons, id, List.foldl_cons]
      exact ih _ hrest

theorem run_subprocess_timeout {σ : Type} (events : List (Option String)) (exitCode : Int)
    (on_line : σ → String → σ × Option String) (s : σ)
    (h : (none : Option String) ∈ events) :
    run_subprocess events exitCode on_line s = .error "Subprocess timed out (6000 s)" := by
  induction events generalizing s with
  | nil => simp at h
  | cons e rest ih =>
    cases e with
    | none => rfl
    | some txt =>
      have hrest : (none : Option String) ∈ rest := by
        rcases List.mem_cons.mp h with h1 | h1
        · exact absurd h1 (by simp)
        · exact h1
      exact ih _ hrest

/-- C9: when every readline produces a line (no timeout), the runner
returns the child's exit code and the callback is applied to every line
in order; exceptions raised by the callback are suppressed — the run is
identical to the run whose callback never raises. -/
theorem c9_callback_exceptions_suppressed {σ : Type} (events : List (Option String))
    (exitCode : Int) (on_line : σ → String → σ × Option String) (s : σ)
    (h : (none : Option String) ∉ events) :
    run_subprocess events exitCode on_line s
      = .ok (exitCode, (events.filterMap id).foldl (fun st l => (on_line st l).1) s)
    ∧ run_subprocess events exitCode on_line s
      = run_subprocess events exitCode (fun st l => ((on_line st l).1, none)) s := by
  refine ⟨run_subprocess_no_timeout events exitCode on_line s h, ?_⟩
  rw [run_subprocess_no_timeout events exitCode on_line s h,
    run_subprocess_no_timeout events exitCode _ s h]

theorem c9_callback_exceptions_suppressed_witness :
    run_subprocess [some "ab", some "c"] 0
        (fun (n : Nat) l => (n + l.length, some "boom")) 0
      = .ok (0, ([some "ab", some "c"].filterMap id).foldl
          (fun st l => ((fun (n : Nat) l => (n + l.length, some "boom")) st l).1) 0)
    ∧ run_subprocess [some "ab", some "c"] 0
        (fun (n : Nat) l => (n + l.length, some "boom")) 0
      = run_subprocess [some "ab", some "c"] 0
          (fun (n : Nat) l => (((fun (m : Nat) l2 => (m + l2.length, some "boom")) n l).1, none)) 0 :=
  c9_callback_exceptions_suppressed [some "ab", some "c"] 0
    (fun (n : Nat) l => (n + l.length, some "boom")) 0 (by decide)

/-!  ## Progress throttle

The throttle state is the dictionary entry `progress["pct"]`, initially
`-1`; a sample is reported exactly when its percent is a multiple of 5
and differs from the stored value, and reporting stores the value. -/

def shouldReport (pct last : Int) : Bool := pct % 5 == 0 && pct != last

def throttleRun : Int → List Int → List Int
  | _, [] => []
  | last, p :: rest =>
    if shouldReport p last then p :: throttleRun p rest else throttleRun last rest

def throttle_reported (pcts : List Int) : List Int := throttleRun (-1) pcts

def throttleState : Int → List Int → Int
  | last, [] => last
  | last, p :: rest => throttleState (if shouldReport p last then p else last) rest

theorem throttleState_eq_getLastD (pcts : List Int) :
    ∀ last, throttleState last pcts = (throttleRun last pcts).getLastD last := by
  induction pcts with
  | nil => intro last; rfl
  | cons p rest ih =>
    intro last
    by_cases h : shouldReport p last = true
    · simp only [throttleState, throttleRun, h, if_true, List.getLastD_cons]
      exact ih p
    · simp only [throttleState, throttleRun, h, Bool.false_eq_true, if_false]
      exact ih last

/-- C4: feeding the percent sequence [3, 5, 5, 9, 10, 10, 15] to the
throttle (initial stored value -1, i.e. nothing reported yet) reports
exactly 5, 10, 15, each once, in that order; and in general a sample is
reported iff its percent is an exact multiple of 5 and differs from the
last reported percent (the last element of the reported list, or the
initial -1 when nothing has been reported). -/
theorem c4_progress_throttle :
    throttle_reported [3, 5, 5, 9, 10, 10, 15] = [5, 10, 15]
    ∧ ∀ (prior : List Int) (pct : Int),
        shouldReport pct (throttleState (-1) prior) = true
          ↔ pct % 5 = 0 ∧ pct ≠ (throttle_reported prior).getLastD (-1) := by
  constructor
  · rfl
  · intro prior pct
    rw [throttleState_eq_getLastD prior (-1)]
    show (pct % 5 == 0 && pct != (throttle_reported prior).getLastD (-1)) = true ↔ _
    simp [shouldReport]

/-!  ## Progress parser

`parse_progress` embeds the two regex searches
`re.search(r"(\d{1,3}\.\d+)%.*?ETA\s+([0-9:]+)", line)` and
`re.search(r"at\s+([0-9\.]+[KMG]?B/s)", line)` followed by
`pct = int(float(m.group(1)))`.  The searches are written out as
scanners over the character list that try every start position left to
right, exactly as `re.search` does.  Within one start position the
pattern pieces are deterministic: the greedy `\d{1,3}` is tried with
width 3, 2, 1, and at most one width can be followed by the mandatory
`'.'` (a digit is never `'.'`); the greedy `\d+`, `\s+`, `[0-9:]+` and
`[0-9\.]+` runs are maximal runs whose follower character lies outside
the class, so no other backtracking choice can succeed; the lazy `.*?`
tries the earliest `ETA` whose tail matches and otherwise extends one
(non-newline) character at a time.  `int(float(...))` on the matched
`\d{1,3}\.\d+` numeral is the value of its integer digits (the model
reads the numeral exactly, ignoring binary floating-point rounding of
extremely long fractional parts). -/

def digitsToNat (l : List Char) : Nat := l.foldl (fun n c => 10 * n + (c.toNat - 48)) 0

def isSpacePy (c : Char) : Bool :=
  c = ' ' || c = '\t' || c = '\n' || c = '\r' || c = '\x0b' || c = '\x0c'

def isEtaChar (c : Char) : Bool := c.isDigit || c = ':'

def isNumDot (c : Char) : Bool := c.isDigit || c = '.'

/-- One greedy width `k` of `(\d{1,3})\.\d+%` at the current position:
`k` digits, a literal dot, a maximal nonempty digit run, then `%`.
Returns the value of the integer digits and the input after the `%`. -/
def pctTryK (k : Nat) (l : List Char) : Option (Nat × List Char) :=
  let ds := l.take k
  if ds.length = k ∧ ds.all Char.isDigit = true then
    match l.drop k with
    | '.' :: rest =>
      let frac := rest.takeWhile Char.isDigit
      if frac = [] then none
      else
        match rest.dropWhile Char.isDigit with
        | '%' :: rest3 => some (digitsToNat ds, rest3)
        | _ => none
    | _ => none
  else none

/-- The tail `ETA\s+([0-9:]+)` tried at the current position. -/
def tryEtaHere (l : List Char) : Option (List Char) :=
  match l with
  | 'E' :: 'T' :: 'A' :: rest =>
    if (rest.takeWhile isSpacePy) = [] then none
    else
      let rest2 := rest.dropWhile isSpacePy
      let eta := rest2.takeWhile isEtaChar
      if eta = [] then none else some eta
  | _ => none

/-- The lazy `.*?ETA\s+([0-9:]+)`: the earliest position whose `ETA` tail
matches wins; `.` does not match a newline. -/
def etaTail : List Char → Option (List Char)
  | [] => none
  | c :: rest =>
    match tryEtaHere (c :: rest) with
    | some eta => some eta
    | none => if c = '\n' then none else etaTail rest

/-- The whole percent pattern anchored at the current position: greedy
`\d{1,3}` (widths 3, 2, 1 — at most one width can reach the dot), then
the fraction, `%`, and the lazy ETA tail. -/
def matchPctHere (l : List Char) : Option (Nat × List Char) :=
  match pctTryK 3 l with
  | some r => (etaTail r.2).map (fun eta => (r.1, eta))
  | none =>
    match pctTryK 2 l with
    | some r => (etaTail r.2).map (fun eta => (r.1, eta))
    | none =>
      match pctTryK 1 l with
      | some r => (etaTail r.2).map (fun eta => (r.1, eta))
      | none => none

/-- `re.search` for the percent pattern: try each start position left to
right. -/
def searchPct : List Char → Option (Nat × List Char)
  | [] => none
  | c :: rest =>
    match matchPctHere (c :: rest) with
    | some r => some r
    | none => searchPct rest

/-- `at\s+([0-9\.]+[KMG]?B/s)` anchored at the current position.  After
the maximal `[0-9\.]+` run the optional `[KMG]` and the literal `B/s`
are deterministic (no class overlaps its follower). -/
def trySpeedHere : List Char → Option (List Char)
  | 'a' :: 't' :: rest =>
    if (rest.takeWhile isSpacePy) = [] then none
    else
      let rest2 := rest.dropWhile isSpacePy
      let num := rest2.takeWhile isNumDot
      if num = [] then none
      else
        match rest2.dropWhile isNumDot with
        | 'K' :: 'B' :: '/' :: 's' :: _ => some (num ++ ['K', 'B', '/', 's'])
        | 'M' :: 'B' :: '/' :: 's' :: _ => some (num ++ ['M', 'B', '/', 's'])
        | 'G' :: 'B' :: '/' :: 's' :: _ => some (num ++ ['G', 'B', '/', 's'])
        | 'B' :: '/' :: 's' :: _ => some (num ++ ['B', '/', 's'])
        | _ => none
  | _ => none

/-- `re.search` for the speed pattern. -/
def searchSpeed : List Char → Option (List Char)
  | [] => none
  | c :: rest =>
    match trySpeedHere (c :: rest) with
    | some r => some r
    | none => searchSpeed rest

structure ProgressSample where
  percent : Nat
  speed : String
  eta : String
deriving DecidableEq

def parse_progress (line : String) : Option ProgressSample :=
  match searchPct line.data with
  | none => none
  | some (pct, eta) =>
    let speed : List Char :=
      match searchSpeed line.data with
      | some sp => sp
      | none => "?".data
    some ⟨pct, ⟨speed⟩, ⟨eta⟩⟩

/-- A line contains a percent token exactly when some digit is
immediately followed by `'%'` — the minimal content every
`\d+(\.\d+)?%` (and in particular every `\d{1,3}\.\d+%`) match needs. -/
def hasDigitPercent : List Char → Bool
  | c :: d :: rest => (c.isDigit && d == '%') || hasDigitPercent (d :: rest)
  | _ => false

theorem hasDigitPercent_cons (c : Char) (l : List Char) (h : hasDigitPercent l = true) :
    hasDigitPercent (c :: l) = true := by
  cases l with
  | nil => simp [hasDigitPercent] at h
  | cons d rest => simp [hasDigitPercent, h]

theorem hasDigitPercent_append (x l : List Char) (h : hasDigitPercent l = true) :
    hasDigitPercent (x ++ l) = true := by
  induction x with
  | nil => simpa using h
  | cons c x' ih => exact hasDigitPercent_cons c (x' ++ l) ih

theorem hasDigitPercent_digits (frac r : List Char) (hne : frac ≠ [])
    (hd : ∀ c ∈ frac, c.isDigit = true) :
    hasDigitPercent (frac ++ '%' :: r) = true := by
  induction frac with
  | nil => exact absurd rfl hne
  | cons f frac' ih =>
    cases frac' with
    | nil =>
      have hf : f.isDigit = true := hd f (List.mem_cons_self _ _)
      simp [hasDigitPercent, hf]
    | cons g frac'' =>
      have hrest : hasDigitPercent ((g :: frac'') ++ '%' :: r) = true :=
        ih (by simp) (fun c hc => hd c (List.mem_cons_of_mem f hc))
      exact hasDigitPercent_cons f _ hrest

theorem pctTryK_none_of_no_token (k : Nat) (l : List Char)
    (h : hasDigitPercent l = false) : pctTryK k l = none := by
  unfold pctTryK
  split
  · split
    · rename_i a rest hdrop b rest3 hdw
      dsimp only
      split
      · split
        · rfl
        · rename_i hcond hfrac
          exfalso
          have hrest : hasDigitPercent rest = true := by
            rw [← List.takeWhile_append_dropWhile Char.isDigit rest, hdw]
            exact hasDigitPercent_digits _ _ hfrac
              (fun c hc => List.mem_takeWhile_imp hc)
          have hdropk : hasDigitPercent (l.drop k) = true := by
            rw [hdrop]
            exact hasDigitPercent_cons '.' rest hrest
          have hl : hasDigitPercent l = true := by
            rw [← List.take_append_drop k l]
            exact hasDigitPercent_append _ _ hdropk
          exact absurd hl (by simp [h])
      · rfl
    · dsimp only
      split
      · split
        · rfl
        · rfl
      · rfl
  · dsimp only
    split
    · rfl
    · rfl

theorem hasDigitPercent_tail (c : Char) (l : List Char)
    (h : hasDigitPercent (c :: l) = false) : hasDigitPercent l = false := by
  cases l with
  | nil => rfl
  | cons d rest =>
    simp only [hasDigitPercent, Bool.or_eq_false_iff] at h
    exact h.2

theorem matchPctHere_none (l : List Char) (h : hasDigitPercent l = false) :
    matchPctHere l = none := by
  simp [matchPctHere, pctTryK_none_of_no_token 1 l h, pctTryK_none_of_no_token 2 l h,
    pctTryK_none_of_no_token 3 l h]

theorem searchPct_none (l : List Char) (h : hasDigitPercent l = false) :
    searchPct l = none := by
  induction l with
  | nil => rfl
  | cons c rest ih =>
    simp only [searchPct, matchPctHere_none _ h]
    exact ih (hasDigitPercent_tail c rest h)

theorem trySpeedHere_of_ne (c : Char) (rest : List Char) (h : ¬ c = 'a') :
    trySpeedHere (c :: rest) = none := by
  unfold trySpeedHere
  split
  · rename_i heq
    rw [List.cons.injEq] at heq
    exact absurd heq.1 h
  · rfl

theorem searchSpeed_none (l : List Char) (h : ∀ c ∈ l, ¬ c = 'a') :
    searchSpeed l = none := by
  induction l with
  | nil => rfl
  | cons c rest ih =>
    simp only [searchSpeed, trySpeedHere_of_ne c rest (h c (List.mem_cons_self _ _))]
    exact ih (fun d hd => h d (List.mem_cons_of_mem c hd))

/-- C5-counterexample: on the spec's example line the extracted speed is
`"?"`, not `"1.23MiB/s"`: the speed pattern `[0-9.]+[KMG]?B/s` has no
room for the `i` of the binary-unit spelling `MiB/s`. -/
theorem c5_counterexample_speed :
    parse_progress "[download]  42.7% of 10.00MiB at 1.23MiB/s ETA 00:30"
      = some ⟨42, "?", "00:30"⟩
    ∧ parse_progress "[download]  42.7% of 10.00MiB at 1.23MiB/s ETA 00:30"
      ≠ some ⟨42, "1.23MiB/s", "00:30"⟩ := by
  exact ⟨rfl, by decide⟩

/-- C5 (amended): on a line containing `42.7%`, `at 1.23MiB/s` and
`ETA 00:30` the parser yields percent 42, eta `"00:30"` and speed `"?"`
(the pattern `[0-9.]+[KMG]?B/s` does not match the `MiB/s` spelling;
with the speed written `1.23MB/s` it is captured); a line with no
percent token (no digit immediately followed by `%`) yields no match. -/
theorem c5_parse_progress_sample (line : String) (h : hasDigitPercent line.data = false) :
    parse_progress "[download]  42.7% of 10.00MiB at 1.23MiB/s ETA 00:30"
      = some ⟨42, "?", "00:30"⟩
    ∧ parse_progress "[download]  42.7% of 10.00MiB at 1.23MB/s ETA 00:30"
      = some ⟨42, "1.23MB/s", "00:30"⟩
    ∧ parse_progress line = none := by
  refine ⟨rfl, rfl, ?_⟩
  unfold parse_progress
  rw [searchPct_none line.data h]

theorem c5_parse_progress_sample_witness :
    parse_progress "[download]  42.7% of 10.00MiB at 1.23MiB/s ETA 00:30"
      = some ⟨42, "?", "00:30"⟩
    ∧ parse_progress "[download]  42.7% of 10.00MiB at 1.23MB/s ETA 00:30"
      = some ⟨42, "1.23MB/s", "00:30"⟩
    ∧ parse_progress "no progress signal on this line" = none :=
  c5_parse_progress_sample "no progress signal on this line" (by decide)

theorem takeWhile_all_append (p : Char → Bool) (b : List Char) (x : Char) (r : List Char)
    (hb : ∀ c ∈ b, p c = true) (hx : p x = false) :
    (b ++ x :: r).takeWhile p = b ∧ (b ++ x :: r).dropWhile p = x :: r := by
  induction b with
  | nil => simp [List.takeWhile_cons, List.dropWhile_cons, hx]
  | cons c b' ih =>
    have hc : p c = true := hb c (List.mem_cons_self _ _)
    have hb' : ∀ c2 ∈ b', p c2 = true := fun c2 hc2 => hb c2 (List.mem_cons_of_mem c hc2)
    have hih := ih hb'
    simp [List.takeWhile_cons, List.dropWhile_cons, hc, hih.1, hih.2]

/-- When the input at the current position is exactly `digits.digits%`
followed by anything, the width that takes all the integer digits
matches and yields their value. -/
theorem pctTryK_digits (a b suf : List Char)
    (had : ∀ c ∈ a, c.isDigit = true) (hb : b ≠ []) (hbd : ∀ c ∈ b, c.isDigit = true) :
    pctTryK a.length (a ++ '.' :: (b ++ '%' :: suf)) = some (digitsToNat a, suf) := by
  have h1 : (b ++ '%' :: suf).takeWhile Char.isDigit = b :=
    (takeWhile_all_append Char.isDigit b '%' suf hbd (by decide)).1
  have h2 : (b ++ '%' :: suf).dropWhile Char.isDigit = '%' :: suf :=
    (takeWhile_all_append Char.isDigit b '%' suf hbd (by decide)).2
  have hall : a.all Char.isDigit = true := List.all_eq_true.mpr had
  simp [pctTryK, List.take_left, List.drop_left, hall, h1, h2, hb]

/-- C6-counterexample: the percent pattern `(\d{1,3}\.\d+)%` demands a
fractional part, so the claim's integer-percent line with an ETA token
yields no sample at all. -/
theorem c6_counterexample_integer_pct : parse_progress "42% ... ETA 00:30" = none := by rfl

/-- C6 (amended): the fetch-line parser requires a percentage written as
one to three digits, a MANDATORY '.' with one or more fractional digits,
then `%`, plus a later ETA token — an integer percent such as `42%`
yields no match — and on a match the reported percent is the integer
part of the matched numeral: the fractional digits are dropped. -/
theorem c6_pct_requires_fraction_and_floors (a b : List Char) (ha : a ≠ [])
    (hlen : a.length ≤ 3) (had : ∀ c ∈ a, c.isDigit = true)
    (hb : b ≠ []) (hbd : ∀ c ∈ b, c.isDigit = true) :
    parse_progress "42% ... ETA 00:30" = none
    ∧ parse_progress ⟨a ++ '.' :: (b ++ '%' :: " ETA 00:30".data)⟩
        = some ⟨digitsToNat a, "?", "00:30"⟩ := by
  refine ⟨rfl, ?_⟩
  have hnoa : ∀ c ∈ a ++ '.' :: (b ++ '%' :: " ETA 00:30".data), ¬ c = 'a' := by
    intro c hc hca
    subst hca
    simp only [List.mem_append, List.mem_cons] at hc
    rcases hc with h1 | h1 | h1 | h1 | h1
    · exact absurd (had 'a' h1) (by decide)
    · exact absurd h1 (by decide)
    · exact absurd (hbd 'a' h1) (by decide)
    · exact absurd h1 (by decide)
    · exact absurd h1 (by decide)
  have hspeed : searchSpeed (a ++ '.' :: (b ++ '%' :: " ETA 00:30".data)) = none :=
    searchSpeed_none _ hnoa
  have hdot : ('.' : Char).isDigit = false := by decide
  rcases b with _ | ⟨b0, b'⟩
  · exact absurd rfl hb
  rcases a with _ | ⟨x, _ | ⟨y, _ | ⟨z, _ | ⟨w, t⟩⟩⟩⟩
  · exact absurd rfl ha
  · -- one integer digit
    have h1 : pctTryK 1 ([x] ++ '.' :: ((b0 :: b') ++ '%' :: " ETA 00:30".data))
        = some (digitsToNat [x], " ETA 00:30".data) := by
      simpa using pctTryK_digits [x] (b0 :: b') " ETA 00:30".data had hb hbd
    have h3 : pctTryK 3 ([x] ++ '.' :: ((b0 :: b') ++ '%' :: " ETA 00:30".data)) = none := by
      simp [pctTryK, hdot]
    have h2 : pctTryK 2 ([x] ++ '.' :: ((b0 :: b') ++ '%' :: " ETA 00:30".data)) = none := by
      simp [pctTryK, hdot]
    have hmatch : matchPctHere ([x] ++ '.' :: ((b0 :: b') ++ '%' :: " ETA 00:30".data))
        = some (digitsToNat [x], "00:30".data) := by
      simp only [matchPctHere, h3, h2, h1]; rfl
    simp only [List.cons_append, List.nil_append] at hmatch hspeed
    show parse_progress ⟨x :: '.' :: (b0 :: (b' ++ '%' :: " ETA 00:30".data))⟩ = _
    simp only [parse_progress, searchPct, hmatch, hspeed]
  · -- two integer digits
    have h2 : pctTryK 2 ([x, y] ++ '.' :: ((b0 :: b') ++ '%' :: " ETA 00:30".data))
        = some (digitsToNat [x, y], " ETA 00:30".data) := by
      simpa using pctTryK_digits [x, y] (b0 :: b') " ETA 00:30".data had hb hbd
    have h3 : pctTryK 3 ([x, y] ++ '.' :: ((b0 :: b') ++ '%' :: " ETA 00:30".data)) = none := by
      simp [pctTryK, hdot]
    have hmatch : matchPctHere ([x, y] ++ '.' :: ((b0 :: b') ++ '%' :: " ETA 00:30".data))
        = some (digitsToNat [x, y], "00:30".data) := by
      simp only [matchPctHere, h3, h2]; rfl
    simp only [List.cons_append, List.nil_append] at hmatch hspeed
    show parse_progress ⟨x :: y :: '.' :: (b0 :: (b' ++ '%' :: " ETA 00:30".data))⟩ = _
    simp only [parse_progress, searchPct, hmatch, hspeed]
  · -- three integer digits
    have h3 : pctTryK 3 ([x, y, z] ++ '.' :: ((b0 :: b') ++ '%' :: " ETA 00:30".data))
        = some (digitsToNat [x, y, z], " ETA 00:30".data) := by
      simpa using pctTryK_digits [x, y, z] (b0 :: b') " ETA 00:30".data had hb hbd
    have hmatch : matchPctHere ([x, y, z] ++ '.' :: ((b0 :: b') ++ '%' :: " ETA 00:30".data))
        = some (digitsToNat [x, y, z], "00:30".data) := by
      simp only [matchPctHere, h3]; rfl
    simp only [List.cons_append, List.nil_append] at hmatch hspeed
    show parse_progress ⟨x :: y :: z :: '.' :: (b0 :: (b' ++ '%' :: " ETA 00:30".data))⟩ = _
    simp only [parse_progress, searchPct, hmatch, hspeed]
  · simp at hlen

theorem c6_pct_requires_fraction_and_floors_witness :
    parse_progress "42% ... ETA 00:30" = none
    ∧ parse_progress ⟨"42".data ++ '.' :: ("9".data ++ '%' :: " ETA 00:30".data)⟩
        = some ⟨digitsToNat "42".data, "?", "00:30"⟩ :=
  c6_pct_requires_fraction_and_floors "42".data "9".data (by decide) (by decide)
    (by decide) (by decide) (by decide)

/-!  ## Upload retry loop

`upload_loop` embeds `for attempt in range(3): try: send_video(...);
break / except: print(...); await asyncio.sleep(5)` together with the
`for`/`else` clause: the oracle `upload i` says whether the `i`-th
`send_video` call succeeds; the walk is over the remaining attempt
indices, and the result is (attempts made, total time slept, success?).
The sleep runs after every failed attempt, including the last one. -/

def upload_loop (upload : Nat → Bool) : List Nat → Nat → Nat × Nat × Bool
  | [], delay => (3, delay, false)
  | a :: rest, delay =>
    if upload a then (a + 1, delay, true)
    else upload_loop upload rest (delay + 5)

def upload_retry (upload : Nat → Bool) : Nat × Nat × Bool := upload_loop upload [0, 1, 2] 0

/-!  ## The download task body

External effects are oracles: `cancelled` says asyncio delivered a
`CancelledError` at the awaited fetch subprocess; `fetchEvents` and
`fetchExit` drive the fetch subprocess through `run_subprocess` (with
the real progress-parsing callback); `ffmpeg` is the transcode outcome
(`communicate` timeout or an exit code); `thumbCreated` is
`thumb_path.exists()` after the thumbnail grab; `upload i` says whether
the `i`-th `send_video` attempt succeeds; `fs0` is the list of paths on
disk when the fetch stage ends.  Status edits through the chat transport
are modelled by the final status message.  Errors the task does not
catch — the fetch-stage timeout `RuntimeError`, and the
`AttributeError` raised inside the `except CancelledError` handler
(see `run_download`) — are `Except.error`, carrying the exception text
and the disk state left behind at the escape. -/

inductive FfmpegOutcome
  | timeout
  | exit (code : Int)

inductive Terminal
  | done
  | failed
  | cancelled
deriving DecidableEq

structure JobPaths where
  temp : String
  final : String
  thumb : String

/-- `final_path`, `temp_path` and `thumb_path` as derived from the
sanitised title. -/
def derivePaths (cleanTitle : String) : JobPaths :=
  ⟨cleanTitle ++ "_temp.mp4", cleanTitle ++ ".mp4", cleanTitle ++ "_thumb.jpg"⟩

structure RunResult where
  terminal : Terminal
  fs : List String
  uploadAttempts : Nat
  totalSleep : Nat
  finalMsg : String

/-- `os.remove` wrapped in `try/except: pass`: removing an absent path is
a no-op. -/
def removeFile (p : String) (fs : List String) : List String := fs.filter (fun q => q != p)

def insertFile (p : String) (fs : List String) : List String := if p ∈ fs then fs else fs ++ [p]

/-- The state effect of the `parse_progress` line callback: the throttle
dictionary entry is updated exactly when the sample is reported; the
callback raises nothing. -/
def parseProgressStep (last : Int) (line : String) : Int × Option String :=
  match parse_progress line with
  | some sp =>
    if shouldReport (sp.percent : Int) last then ((sp.percent : Int), none) else (last, none)
  | none => (last, none)

def run_download (paths : JobPaths) (cancelled : Bool) (fetchEvents : List (Option String))
    (fetchExit : Int) (ffmpeg : FfmpegOutcome) (thumbCreated : Bool)
    (upload : Nat → Bool) (fs0 : List String) : Except (String × List String) RunResult :=
  if cancelled then
    -- `except asyncio.CancelledError:` — the handler first runs
    -- `await msg.edit_message_text(...)`, but pyrogram `Message` has no
    -- `edit_message_text` method (its method is `edit_text`, which every other
    -- status edit in the file uses), so the attribute access raises
    -- `AttributeError` before the guarded `os.remove(temp_path)` is reached:
    -- nothing is removed, no message is sent, and the exception escapes the
    -- task with the filesystem untouched.
    .error ("AttributeError: Message has no attribute edit_message_text", fs0)
  else
    match run_subprocess fetchEvents fetchExit parseProgressStep (-1) with
    | .error e => .error (e, fs0)
    | .ok (ret, _) =>
      if ret != 0 then .ok ⟨.failed, fs0, 0, 0, "❌ Download failed."⟩
      else
        match ffmpeg with
        | .timeout => .ok ⟨.failed, fs0, 0, 0, "❌ FFmpeg merge timed out."⟩
        | .exit code =>
          if code != 0 then .ok ⟨.failed, fs0, 0, 0, "❌ FFmpeg merge failed."⟩
          else
            let fs1 := insertFile paths.final fs0
            let fs2 := if thumbCreated then insertFile paths.thumb fs1 else fs1
            match upload_retry upload with
            | (attempts, delay, true) =>
              -- cleanup over (temp_path, final_path, thumb_path)
              let fs3 := removeFile paths.temp fs2
              let fs4 := removeFile paths.final fs3
              let fs5 := if thumbCreated then removeFile paths.thumb fs4 else fs4
              .ok ⟨.done, fs5, attempts, delay, "✅ Done. File deleted locally."⟩
            | (attempts, delay, false) =>
              .ok ⟨.failed, fs2, attempts, delay, "❌ Upload failed after multiple retries."⟩

/-- C2 (code bug): cancellation during Fetching never reaches the
cleanup or the Cancelled state.  The `except CancelledError` handler
immediately raises `AttributeError` (`msg.edit_message_text` is not a
pyrogram Message method), so for every disk state the task dies with an
escaped error whose carried filesystem is `fs0` unchanged — in
particular the job's temp file, if present, survives — and no
cancellation status message and no terminal state are produced. -/
theorem c2_cancel_handler_crashes (paths : JobPaths) (ev : List (Option String)) (ec : Int)
    (ffm : FfmpegOutcome) (th : Bool) (up : Nat → Bool) (fs0 : List String) :
    run_download paths true ev ec ffm th up fs0
      = .error ("AttributeError: Message has no attribute edit_message_text", fs0) := rfl

/-- C3-counterexample: with the partial temp file on disk, a nonzero
fetch exit reports failure and returns without any cleanup: the temp
file still exists on the failure path. -/
theorem c3_counterexample_temp_survives :
    ∃ r : RunResult,
      run_download (derivePaths "video") false [] 1 (.exit 0) false (fun _ => true)
          ["video_temp.mp4"] = .ok r
        ∧ r.terminal = .failed ∧ "video_temp.mp4" ∈ r.fs :=
  ⟨_, rfl, rfl, by simp⟩

/-- C3 (amended): a nonzero fetch exit reports `"❌ Download failed."`
and returns at once with the filesystem untouched — the partial temp
artifact is NOT cleaned up.  This matches the timeout case only in that
the timeout path also removes nothing (it propagates its exception with
the filesystem untouched). -/
theorem c3_nonzero_exit_keeps_temp (paths : JobPaths) (ev : List (Option String))
    (ret : Int) (ffm : FfmpegOutcome) (th : Bool) (up : Nat → Bool) (fs0 : List String)
    (hev : (none : Option String) ∉ ev) (hret : ret ≠ 0) :
    run_download paths false ev ret ffm th up fs0
      = .ok ⟨.failed, fs0, 0, 0, "❌ Download failed."⟩ := by
  unfold run_download
  rw [run_subprocess_no_timeout ev ret parseProgressStep (-1) hev]
  simp [hret]

theorem c3_nonzero_exit_keeps_temp_witness :
    run_download (derivePaths "clip") false [some "line"] 2 (.exit 0) false
        (fun _ => false) ["clip_temp.mp4"]
      = .ok ⟨.failed, ["clip_temp.mp4"], 0, 0, "❌ Download failed."⟩ :=
  c3_nonzero_exit_keeps_temp (derivePaths "clip") [some "line"] 2 (.exit 0) false
    (fun _ => false) ["clip_temp.mp4"] (by decide) (by decide)

/-- C7: the upload loop makes at most 3 attempts, sleeping a fixed 5
units after each failure; with the first two attempts failing and the
third succeeding, the job ends in Done after exactly 3 attempts with 10
units of enforced delay before success; after all 3 attempts fail it
reports failure once and stops. -/
theorem c7_upload_retry_policy (upload u2 u3 : Nat → Bool) (paths : JobPaths)
    (ev : List (Option String)) (th : Bool) (fs0 : List String)
    (hev : (none : Option String) ∉ ev)
    (h0 : upload 0 = false) (h1 : upload 1 = false) (h2 : upload 2 = true)
    (hall : ∀ i, i < 3 → u2 i = false) :
    (upload_retry u3).1 ≤ 3
    ∧ upload_retry upload = (3, 10, true)
    ∧ upload_retry u2 = (3, 15, false)
    ∧ (∃ r : RunResult, run_download paths false ev 0 (.exit 0) th upload fs0 = .ok r
        ∧ r.terminal = .done ∧ r.uploadAttempts = 3 ∧ r.totalSleep = 10
        ∧ r.finalMsg = "✅ Done. File deleted locally.")
    ∧ (∃ r : RunResult, run_download paths false ev 0 (.exit 0) th u2 fs0 = .ok r
        ∧ r.terminal = .failed ∧ r.uploadAttempts = 3
        ∧ r.finalMsg = "❌ Upload failed after multiple retries.") := by
  have hloop : upload_retry upload = (3, 10, true) := by
    simp [upload_retry, upload_loop, h0, h1, h2]
  have hloop2 : upload_retry u2 = (3, 15, false) := by
    have ha0 := hall 0 (by omega)
    have ha1 := hall 1 (by omega)
    have ha2 := hall 2 (by omega)
    simp [upload_retry, upload_loop, ha0, ha1, ha2]
  refine ⟨?_, hloop, hloop2, ?_, ?_⟩
  · cases hu0 : u3 0 <;> cases hu1 : u3 1 <;> cases hu2 : u3 2 <;>
      simp [upload_retry, upload_loop, hu0, hu1, hu2]
  · unfold run_download
    rw [run_subprocess_no_timeout ev 0 parseProgressStep (-1) hev, hloop]
    exact ⟨_, rfl, rfl, rfl, rfl, rfl⟩
  · unfold run_download
    rw [run_subprocess_no_timeout ev 0 parseProgressStep (-1) hev, hloop2]
    exact ⟨_, rfl, rfl, rfl, rfl⟩

theorem c7_upload_retry_policy_witness :
    (upload_retry (fun _ => true)).1 ≤ 3
    ∧ upload_retry (fun n => n == 2) = (3, 10, true)
    ∧ upload_retry (fun _ => false) = (3, 15, false)
    ∧ (∃ r : RunResult, run_download (derivePaths "movie") false [] 0 (.exit 0) false
          (fun n => n == 2) [] = .ok r
        ∧ r.terminal = .done ∧ r.uploadAttempts = 3 ∧ r.totalSleep = 10
        ∧ r.finalMsg = "✅ Done. File deleted locally.")
    ∧ (∃ r : RunResult, run_download (derivePaths "movie") false [] 0 (.exit 0) false
          (fun _ => false) [] = .ok r
        ∧ r.terminal = .failed ∧ r.uploadAttempts = 3
        ∧ r.finalMsg = "❌ Upload failed after multiple retries.") :=
  c7_upload_retry_policy (fun n => n == 2) (fun _ => false) (fun _ => true)
    (derivePaths "movie") [] false [] (by decide) (by decide) (by decide) (by decide)
    (fun i hi => rfl)

/-- C8-counterexample: a fetch-stage read timeout is not caught by the
download task: it escapes as the raised error (with the disk state left
behind) instead of being turned into a terminal state with a status
message. -/
theorem c8_counterexample_timeout_escapes :
    run_download (derivePaths "video") false [none] 0 (.exit 0) false (fun _ => true) []
      = .error ("Subprocess timed out (6000 s)", []) := by rfl

/-- C8 (amended): with no fetch read timeout and no cancellation, every
stage outcome — nonzero fetch exit, transcode timeout or failure, upload
exhaustion, full success — ends in a terminal state carrying one of the
five final status messages and no error escapes; but two errors do
escape the job task uncaught: the fetch read-timeout `RuntimeError`,
and the `AttributeError` the `except CancelledError` handler raises at
`msg.edit_message_text`, so cancellation also escapes instead of being
translated. -/
theorem c8_stage_errors_translated (paths : JobPaths)
    (ev ev2 : List (Option String)) (ret : Int) (ffm : FfmpegOutcome) (th : Bool)
    (up : Nat → Bool) (fs0 : List String)
    (hev : (none : Option String) ∉ ev) (hev2 : (none : Option String) ∈ ev2) :
    (∃ r : RunResult, run_download paths false ev ret ffm th up fs0 = .ok r
        ∧ r.finalMsg ∈ ["❌ Download failed.",
            "❌ FFmpeg merge timed out.", "❌ FFmpeg merge failed.",
            "❌ Upload failed after multiple retries.", "✅ Done. File deleted locally."])
    ∧ run_download paths false ev2 ret ffm th up fs0
        = .error ("Subprocess timed out (6000 s)", fs0)
    ∧ run_download paths true ev ret ffm th up fs0
        = .error ("AttributeError: Message has no attribute edit_message_text", fs0) := by
  refine ⟨?_, ?_, rfl⟩
  · unfold run_download
    rw [run_subprocess_no_timeout ev ret parseProgressStep (-1) hev]
    rcases hur : upload_retry up with ⟨a, d, ok⟩
    cases ok
    all_goals
      repeat'
        first
        | exact ⟨_, rfl, by simp⟩
        | split
    all_goals
      rename_i heq
      exact absurd heq (by simp)
  · unfold run_download
    rw [run_subprocess_timeout ev2 ret parseProgressStep (-1) hev2]
    rfl

theorem c8_stage_errors_translated_witness :
    (∃ r : RunResult, run_download (derivePaths "show") false [some "x"] 0 (.exit 1) true
          (fun _ => true) [] = .ok r
        ∧ r.finalMsg ∈ ["❌ Download failed.",
            "❌ FFmpeg merge timed out.", "❌ FFmpeg merge failed.",
            "❌ Upload failed after multiple retries.", "✅ Done. File deleted locally."])
    ∧ run_download (derivePaths "show") false [none] 0 (.exit 1) true (fun _ => true) []
        = .error ("Subprocess timed out (6000 s)", [])
    ∧ run_download (derivePaths "show") true [some "x"] 0 (.exit 1) true (fun _ => true) []
        = .error ("AttributeError: Message has no attribute edit_message_text", []) :=
  c8_stage_errors_translated (derivePaths "show") [some "x"] [none] 0 (.exit 1) true
    (fun _ => true) [] (by decide) (by decide)

/-!  ## Per-user submission state

The module-level dictionaries `user_url` and `user_tasks` are assoc
lists keyed by the requester id; `tasks` is the pool of tasks ever
spawned with `asyncio.create_task`, identified by their index.
`handle_url` embeds the text handler (URL validation and storage);
`download_video` embeds the callback-query handler up to scheduling
`run_download`: look up the stored URL, parse the chosen quality with
`int(...)`, run the metadata extraction (an external oracle), then
create the task and store it in `user_tasks` — the source performs no
check of `user_tasks` before doing so.  `cancel_download` embeds the
`/cancel` handler. -/

inductive TaskStatus
  | running
  | finished
deriving DecidableEq

structure BotTask where
  owner : Nat
  status : TaskStatus
deriving DecidableEq

structure BotState where
  user_url : List (Nat × String)
  user_tasks : List (Nat × Nat)
  tasks : List BotTask
deriving DecidableEq

def initState : BotState := ⟨[], [], []⟩

def lookup? {α : Type} (k : Nat) : List (Nat × α) → Option α
  | [] => none
  | (a, b) :: rest => if a = k then some b else lookup? k rest

/-- Python dict assignment `d[k] = v`. -/
def setk {α : Type} (k : Nat) (v : α) : List (Nat × α) → List (Nat × α)
  | [] => [(k, v)]
  | (a, b) :: rest => if a = k then (k, v) :: rest else (a, b) :: setk k v rest

/-- `"youtube.com" in url` — substring containment. -/
def containsSub (needle hay : String) : Bool :=
  hay.data.tails.any (fun t => needle.data.isPrefixOf t)

def handle_url (st : BotState) (u : Nat) (text : String) : String × BotState :=
  if containsSub "youtube.com" text || containsSub "youtu.be" text then
    ("Select your preferred quality:", { st with user_url := setk u text st.user_url })
  else
    ("❌ Please send a valid YouTube URL.", st)

inductive SubmitOutcome
  | accepted
  | rejected (msg : String)
deriving DecidableEq

/-- `int(query.data)` on the digit payloads carried by the quality
buttons. -/
def parseIntOpt (s : String) : Option Nat :=
  if s.data ≠ [] ∧ s.data.all Char.isDigit = true then some (digitsToNat s.data) else none

def download_video (st : BotState) (u : Nat) (data : String) (infoOk : Bool) :
    SubmitOutcome × BotState :=
  match lookup? u st.user_url with
  | none => (.rejected "❌ URL not found. Please send the link again.", st)
  | some _url =>
    match parseIntOpt data with
    | none => (.rejected "❌ Invalid selection.", st)
    | some _quality =>
      if infoOk then
        -- task = asyncio.create_task(run_download()); user_tasks[user_id] = task
        (.accepted,
          { st with
              tasks := st.tasks ++ [⟨u, .running⟩],
              user_tasks := setk u st.tasks.length st.user_tasks })
      else
        (.rejected "❌ Failed to extract video info.", st)

def cancel_download (st : BotState) (u : Nat) : String :=
  match lookup? u st.user_tasks with
  | some i =>
    match st.tasks.get? i with
    | some t =>
      if t.status = .running then "❌ Download cancelled successfully."
      else "ℹ️ No active download to cancel."
    | none => "ℹ️ No active download to cancel."
  | none => "ℹ️ No active download to cancel."

def countRunning (st : BotState) (u : Nat) : Nat :=
  (st.tasks.filter (fun t => t.owner == u && t.status == TaskStatus.running)).length

theorem lookup?_setk {α : Type} (k : Nat) (v : α) (l : List (Nat × α)) :
    lookup? k (setk k v l) = some v := by
  induction l with
  | nil => simp [setk, lookup?]
  | cons p rest ih =>
    rcases p with ⟨a, b⟩
    by_cases h : a = k
    · simp [setk, lookup?, h]
    · simp [setk, lookup?, h, ih]

theorem mem_keys_setk {α : Type} (x k : Nat) (v : α) (l : List (Nat × α))
    (h : x ∈ (setk k v l).map Prod.fst) : x ∈ l.map Prod.fst ∨ x = k := by
  induction l with
  | nil =>
    simp [setk] at h
    exact Or.inr h
  | cons p rest ih =>
    rcases p with ⟨a, b⟩
    by_cases ha : a = k
    · subst ha
      rw [show setk a v ((a, b) :: rest) = (a, v) :: rest from by simp [setk],
        List.map_cons, List.mem_cons] at h
      rcases h with h | h
      · subst h
        exact Or.inl (by rw [List.map_cons]; exact List.mem_cons_self _ _)
      · exact Or.inl (by rw [List.map_cons]; exact List.mem_cons_of_mem a h)
    · rw [show setk k v ((a, b) :: rest) = (a, b) :: setk k v rest from by simp [setk, ha],
        List.map_cons, List.mem_cons] at h
      rcases h with h | h
      · subst h
        exact Or.inl (by rw [List.map_cons]; exact List.mem_cons_self _ _)
      · rcases ih h with h2 | h2
        · exact Or.inl (by rw [List.map_cons]; exact List.mem_cons_of_mem a h2)
        · exact Or.inr h2

theorem nodup_keys_setk {α : Type} (k : Nat) (v : α) (l : List (Nat × α))
    (h : (l.map Prod.fst).Nodup) : ((setk k v l).map Prod.fst).Nodup := by
  induction l with
  | nil => simp [setk]
  | cons p rest ih =>
    rcases p with ⟨a, b⟩
    rw [List.map_cons, List.nodup_cons] at h
    by_cases ha : a = k
    · subst ha
      rw [show setk a v ((a, b) :: rest) = (a, v) :: rest from by simp [setk],
        List.map_cons, List.nodup_cons]
      exact h
    · have hrest := ih h.2
      rw [show setk k v ((a, b) :: rest) = (a, b) :: setk k v rest from by simp [setk, ha],
        List.map_cons, List.nodup_cons]
      refine ⟨?_, hrest⟩
      intro hmem
      rcases mem_keys_setk a k v rest hmem with h2 | h2
      · exact h.1 h2
      · exact ha h2

/-- C1-counterexample: starting from the empty state, a requester stores
a URL and submits a job; a second submission while the first job is
still running is NOT rejected — it is accepted and leaves the requester
with two jobs in a non-terminal state. -/
theorem c1_counterexample_second_submit_accepted :
    ((download_video (handle_url initState 7 "https://youtu.be/abc").2 7 "480" true).1
        = SubmitOutcome.accepted)
    ∧ ((download_video
          (download_video (handle_url initState 7 "https://youtu.be/abc").2 7 "480" true).2
          7 "480" true).1 = SubmitOutcome.accepted)
    ∧ countRunning
        (download_video
          (download_video (handle_url initState 7 "https://youtu.be/abc").2 7 "480" true).2
          7 "480" true).2 7 = 2 := by
  refine ⟨rfl, rfl, rfl⟩

/-- C1 (amended): a submission with a stored URL, a numeric quality
payload and successful metadata extraction is always accepted — even
when the requester already has a running job: it appends one more
running task owned by the requester (raising the requester's count of
non-terminal jobs by one) and repoints the requester's `user_tasks`
entry to the new task, so that mapping keeps at most one entry per
requester (key-uniqueness is preserved) but the superseded task keeps
running. -/
theorem c1_submit_always_accepted (st : BotState) (u : Nat) (data : String) (url : String)
    (q : Nat) (hurl : lookup? u st.user_url = some url) (hdata : parseIntOpt data = some q) :
    (download_video st u data true).1 = SubmitOutcome.accepted
    ∧ (download_video st u data true).2.tasks = st.tasks ++ [⟨u, TaskStatus.running⟩]
    ∧ lookup? u (download_video st u data true).2.user_tasks = some st.tasks.length
    ∧ countRunning (download_video st u data true).2 u = countRunning st u + 1
    ∧ ((st.user_tasks.map Prod.fst).Nodup →
        ((download_video st u data true).2.user_tasks.map Prod.fst).Nodup) := by
  unfold download_video
  rw [hurl, hdata]
  refine ⟨rfl, rfl, lookup?_setk u st.tasks.length st.user_tasks, ?_,
    fun h => nodup_keys_setk u st.tasks.length st.user_tasks h⟩
  simp [countRunning, List.filter_append]

theorem c1_submit_always_accepted_witness :
    (download_video ⟨[(7, "https://youtu.be/abc")], [(7, 0)], [⟨7, TaskStatus.running⟩]⟩
        7 "480" true).1 = SubmitOutcome.accepted
    ∧ (download_video ⟨[(7, "https://youtu.be/abc")], [(7, 0)], [⟨7, TaskStatus.running⟩]⟩
        7 "480" true).2.tasks
        = (⟨[(7, "https://youtu.be/abc")], [(7, 0)],
            [⟨7, TaskStatus.running⟩]⟩ : BotState).tasks ++ [⟨7, TaskStatus.running⟩]
    ∧ lookup? 7 (download_video ⟨[(7, "https://youtu.be/abc")], [(7, 0)],
          [⟨7, TaskStatus.running⟩]⟩ 7 "480" true).2.user_tasks
        = some (⟨[(7, "https://youtu.be/abc")], [(7, 0)],
            [⟨7, TaskStatus.running⟩]⟩ : BotState).tasks.length
    ∧ countRunning (download_video ⟨[(7, "https://youtu.be/abc")], [(7, 0)],
          [⟨7, TaskStatus.running⟩]⟩ 7 "480" true).2 7
        = countRunning (⟨[(7, "https://youtu.be/abc")], [(7, 0)],
            [⟨7, TaskStatus.running⟩]⟩ : BotState) 7 + 1
    ∧ (((⟨[(7, "https://youtu.be/abc")], [(7, 0)],
          [⟨7, TaskStatus.running⟩]⟩ : BotState).user_tasks.map Prod.fst).Nodup →
        (((download_video ⟨[(7, "https://youtu.be/abc")], [(7, 0)],
            [⟨7, TaskStatus.running⟩]⟩ 7 "480" true).2.user_tasks.map Prod.fst).Nodup)) :=
  c1_submit_always_accepted ⟨[(7, "https://youtu.be/abc")], [(7, 0)],
    [⟨7, TaskStatus.running⟩]⟩ 7 "480" "https://youtu.be/abc" 480 (by rfl) (by rfl)

end Mybot
